import Mathlib

/-!
# Ruby bindings for stb_image (`ext/bindings.c`)

A shallow embedding of the binding layer: the three byte-source callbacks handed to the
decoder (`sr_read_callback`, `sr_skip_callback`, `sr_eof_callback`), the two loaders
(`sr_load_image`, `sr_load_float_image`) and the four conversion setters.

Conventions of the embedding

* The C data model is LP64: `int` is 32 bits, `long` and `size_t` are 64 bits, signed
  arithmetic wraps in two-complement fashion.
* A Ruby object that is used as byte source is a `Source`: the set of methods it responds
  to, and the behaviour of each method on an explicit object state. A method either
  returns a Ruby value or raises; a raised exception unwinds through the C frames.
* `World` carries the state of the source object together with observation fields: the
  ordered list of method invocations made on the source, the warnings printed with
  `rb_warn`, how often the decoder was entered and how often a block was yielded to.
* The decoder itself (`stb_image.c`) is not part of the binding file. It is an arbitrary
  `Decoder`: a well-founded strategy that may invoke the three callbacks in any order and
  finally reports an image or failure.
-/

namespace StbImage

/-! ## C integer types -/

/-- Largest value of a C `int`. -/
def INT_MAX : Int := 2147483647

/-- Value of an integer expression stored in a C `int` (32 bit, wrap-around). -/
def to_int (n : Int) : Int := (n + 2147483648) % 4294967296 - 2147483648

/-- Value of an integer converted to `size_t` (64 bit, unsigned). -/
def to_size_t (n : Int) : Int := n % 18446744073709551616

/-- Value of an integer converted to `long` (64 bit, wrap-around). -/
def to_long (n : Int) : Int :=
  (n + 9223372036854775808) % 18446744073709551616 - 9223372036854775808

/-- The C expression `sizeof(float)`. -/
def sizeof_float : Int := 4

/-- The enumerator `STBI_default` of stb_image, the value of `COMPONENTS_DEFAULT`. -/
def STBI_default : Int := 0

/-! ## Ruby values -/

/-- Exceptions that can unwind out of the binding. `user` stands for any exception raised
by a method of the source object or by the block. -/
inductive Exn where
  | ArgumentError
  | TypeError
  | RangeError
  | user (tag : Nat)
deriving DecidableEq, Repr

/-- Ruby objects as far as the binding distinguishes them. `string` holds the bytes of a
String, `array` the elements of an Array; `object` is any other object (it has no implicit
conversion to String). -/
inductive RObject where
  | nil
  | false_
  | true_
  | fixnum (n : Int)
  | string (bytes : List Nat)
  | array (elems : List RObject)
  | object (tag : Nat)

/-- A `VALUE` as returned by `rb_check_funcall`: `none` is the marker `Qundef`, which no
Ruby method can return. -/
abbrev VALUE := Option RObject

/-- The marker `Qundef`. -/
def Qundef : VALUE := none

/-- The macro `RTEST`: everything except `nil` and `false` is truthy. -/
def RTEST : RObject → Bool
  | .nil => false
  | .false_ => false
  | _ => true

/-- The macro `NIL_P`. -/
def NIL_P : RObject → Bool
  | .nil => true
  | _ => false

/-- The macro `StringValuePtr`: the bytes of a String; any other value of this model has no
`to_str` conversion and the macro raises `TypeError`. -/
def StringValuePtr : RObject → Except Exn (List Nat)
  | .string bytes => .ok bytes
  | _ => .error .TypeError

/-- The macro `RSTRING_LENINT`: the byte length as a C `int`; `RangeError` when it does not
fit. -/
def RSTRING_LENINT (bytes : List Nat) : Except Exn Int :=
  if (bytes.length : Int) ≤ INT_MAX then .ok (bytes.length : Int) else .error .RangeError

/-- The function `rb_external_str_new (ptr, len)`: a String of `len` bytes copied from
`ptr`, where `ptr i` is the byte at `ptr[i]`. A negative `len` raises `ArgumentError`
(negative string size). The default internal encoding is taken to be unset, so no
transcoding happens. -/
def rb_external_str_new (ptr : Nat → Nat) (len : Int) : Except Exn RObject :=
  if len < 0 then .error .ArgumentError
  else .ok (.string ((List.range len.toNat).map ptr))

/-! ## Source objects and the observable world -/

/-- The four method ids interned in `Init_stb_image_bindings`:
`read`, `skip`, `eof` and `eof?`. -/
inductive Meth where
  | read
  | skip
  | eof
  | eof_qm
deriving DecidableEq, Repr

/-- Warnings printed through `rb_warn`, one constructor per message of the file. -/
inductive Warning where
  | no_read
  | no_skip_or_read
  | no_eof
deriving DecidableEq, Repr

/-- A non-nil Ruby object passed as byte source, with object state `σ`. `responds m` tells
whether the object responds to `m`; `invoke m argv s` runs the method on state `s` and
gives the raised exception or the returned value, and the next state. -/
structure Source (σ : Type) where
  responds : Meth → Bool
  invoke : Meth → List RObject → σ → Except Exn RObject × σ

/-- State of the source object plus the observation fields. -/
structure World (σ : Type) where
  src : σ
  calls : List (Meth × List RObject)
  warnings : List Warning
  decodes : Nat
  yields : Nat

/-- The function `rb_warn`. -/
def rb_warn {σ : Type} (msg : Warning) (w : World σ) : World σ :=
  { w with warnings := w.warnings ++ [msg] }

/-- The function `rb_check_funcall`: when the object does not respond to `mid` nothing is
invoked and `Qundef` comes back; otherwise the method is invoked once and its value is
returned, or its exception propagates. -/
def rb_check_funcall {σ : Type} (obj : Source σ) (mid : Meth) (argv : List RObject)
    (w : World σ) : Except Exn VALUE × World σ :=
  if obj.responds mid then
    let r := obj.invoke mid argv w.src
    (r.1.map some, { w with src := r.2, calls := w.calls ++ [(mid, argv)] })
  else
    (.ok Qundef, w)

/-- The function `rb_obj_respond_to (obj, id, 0)`. -/
def rb_obj_respond_to {σ : Type} (obj : Source σ) (mid : Meth) : Bool :=
  obj.responds mid

/-! ## The callbacks -/

/-- Effect of one `sr_read_callback` call as seen by the decoder: `copied` are the bytes
that `memcpy` stored at `data[0]`, `data[1]`, ...; `ret` is the returned count. -/
structure ReadResult where
  copied : List Nat
  ret : Int
deriving DecidableEq, Repr

/-- The function `sr_read_callback (user, data, size)`. -/
def sr_read_callback {σ : Type} (user : Source σ) (size : Int) (w : World σ) :
    Except Exn ReadResult × World σ :=
  let sr_size := RObject.fixnum size
  match rb_check_funcall user .read [sr_size] w with
  | (.error e, w1) => (.error e, w1)
  | (.ok (some sr_data), w1) =>
    if RTEST sr_data then
      match StringValuePtr sr_data with
      | .error e => (.error e, w1)
      | .ok string_data =>
        match RSTRING_LENINT string_data with
        | .error e => (.error e, w1)
        | .ok string_length =>
          (.ok { copied := string_data.take string_length.toNat, ret := string_length }, w1)
    else
      (.ok { copied := [], ret := 0 }, rb_warn .no_read w1)
  | (.ok none, w1) =>
    (.ok { copied := [], ret := 0 }, rb_warn .no_read w1)

/-- The function `sr_skip_callback (user, size)`. The second `rb_check_funcall` is only
evaluated when the first one returned `Qundef` (short-circuit `||`). -/
def sr_skip_callback {σ : Type} (user : Source σ) (size : Nat) (w : World σ) :
    Except Exn Unit × World σ :=
  let sr_size := RObject.fixnum (size : Int)
  match rb_check_funcall user .skip [sr_size] w with
  | (.error e, w1) => (.error e, w1)
  | (.ok (some _), w1) => (.ok (), w1)
  | (.ok none, w1) =>
    match rb_check_funcall user .read [sr_size] w1 with
    | (.error e, w2) => (.error e, w2)
    | (.ok (some _), w2) => (.ok (), w2)
    | (.ok none, w2) => (.ok (), rb_warn .no_skip_or_read w2)

/-- The function `sr_eof_callback (user)`. Both `rb_check_funcall` calls of the source pass
`s_eof_qm_funcid`, the id of `eof?`; `s_eof_funcid` is not used by the function. The result
is the C truth value `RTEST (result)`. -/
def sr_eof_callback {σ : Type} (user : Source σ) (w : World σ) :
    Except Exn Bool × World σ :=
  match rb_check_funcall user .eof_qm [] w with
  | (.error e, w1) => (.error e, w1)
  | (.ok (some result), w1) => (.ok (RTEST result), w1)
  | (.ok none, w1) =>
    match rb_check_funcall user .eof_qm [] w1 with
    | (.error e, w2) => (.error e, w2)
    | (.ok (some result), w2) => (.ok (RTEST result), w2)
    | (.ok none, w2) => (.ok (RTEST .false_), rb_warn .no_eof w2)

/-- The struct `stbi_io_callbacks`. -/
structure stbi_io_callbacks (σ : Type) where
  read : Source σ → Int → World σ → Except Exn ReadResult × World σ
  skip : Source σ → Nat → World σ → Except Exn Unit × World σ
  eof : Source σ → World σ → Except Exn Bool × World σ

/-- The static `s_st_callbacks`. -/
def s_st_callbacks (σ : Type) : stbi_io_callbacks σ :=
  { read := sr_read_callback, skip := sr_skip_callback, eof := sr_eof_callback }

/-! ## The decoder as a parameter -/

/-- What `stbi_load_from_callbacks` and `stbi_loadf_from_callbacks` hand back on success: a
non-null pointer `data` (`data i` is the byte at offset `i`) and the values stored through
the out-parameters `x`, `y` and `comp`. -/
structure Image where
  data : Nat → Nat
  x : Int
  y : Int
  comp : Int

/-- An arbitrary decoder: it finishes with an image or with failure (`none`, the null
pointer), or invokes one of the three callbacks and continues with what the callback
returned. -/
inductive Decoder where
  | done (result : Option Image)
  | read (size : Int) (k : ReadResult → Decoder)
  | skip (n : Nat) (k : Decoder)
  | eof (k : Bool → Decoder)

/-- Running a decoder against the callback table `cb` with user pointer `user`. An
exception raised inside a callback unwinds through the decoder. -/
def Decoder.run {σ : Type} (cb : stbi_io_callbacks σ) (user : Source σ) :
    Decoder → World σ → Except Exn (Option Image) × World σ
  | .done result, w => (.ok result, w)
  | .read size k, w =>
    match cb.read user size w with
    | (.error e, w1) => (.error e, w1)
    | (.ok r, w1) => Decoder.run cb user (k r) w1
  | .skip n k, w =>
    match cb.skip user n w with
    | (.error e, w1) => (.error e, w1)
    | (.ok _, w1) => Decoder.run cb user k w1
  | .eof k, w =>
    match cb.eof user w with
    | (.error e, w1) => (.error e, w1)
    | (.ok b, w1) => Decoder.run cb user (k b) w1

/-- The call of `stbi_load_from_callbacks` or `stbi_loadf_from_callbacks` is counted in
`decodes`. -/
def enter_decoder {σ : Type} (w : World σ) : World σ :=
  { w with decodes := w.decodes + 1 }

/-- A block given to a loader: it receives the splatted array and returns a value or
raises. -/
abbrev Block := List RObject → Except Exn RObject

/-- The function `rb_yield_splat`. -/
def rb_yield_splat {σ : Type} (block : Block) (ary : RObject) (w : World σ) :
    Except Exn RObject × World σ :=
  match ary with
  | .array elems => (block elems, { w with yields := w.yields + 1 })
  | other => (block [other], { w with yields := w.yields + 1 })

/-! ## The loaders -/

/-- The function `sr_load_image`, after `rb_scan_args`.

* `stbi_load_from_callbacks req_comp` is the decoder run for the requested count.
* `sr_callbacks` is the first argument, `none` for `nil`.
* `sr_req_comp` is the second argument: `none` when it is omitted, `nil` or `false`
  (`RTEST` fails), otherwise the C `int` that `FIX2INT` yields for it.
* `block` is the block, if one is given (`rb_block_given_p`).

The local `sr_image_data` starts as `Qnil` and becomes the result array when the decoder
returned a non-null pointer. -/
def sr_load_image {σ : Type} (stbi_load_from_callbacks : Int → Decoder)
    (sr_callbacks : Option (Source σ)) (sr_req_comp : Option Int) (block : Option Block)
    (w : World σ) : Except Exn RObject × World σ :=
  match sr_callbacks with
  | none => (.error .ArgumentError, w)
  | some user =>
    let components0 : Int :=
      match sr_req_comp with
      | some n => n
      | none => STBI_default
    if !rb_obj_respond_to user .read ||
        !(rb_obj_respond_to user .eof || rb_obj_respond_to user .eof_qm) then
      (.error .TypeError, w)
    else
      match (stbi_load_from_callbacks components0).run (s_st_callbacks σ) user
          (enter_decoder w) with
      | (.error e, w1) => (.error e, w1)
      | (.ok data, w1) =>
        let sr_image_data : Except Exn RObject :=
          match data with
          | some img =>
            -- components[!components[0]]
            let comp := if components0 = 0 then img.comp else components0
            let length := to_long (to_int (to_int (img.x * img.y) * comp))
            match rb_external_str_new img.data length with
            | .error e => .error e
            | .ok str => .ok (.array [str, .fixnum img.x, .fixnum img.y, .fixnum comp])
          | none => .ok .nil
        match sr_image_data with
        | .error e => (.error e, w1)
        | .ok v =>
          match !NIL_P v, block with
          | true, some b => rb_yield_splat b v w1
          | _, _ => (.ok v, w1)

/-- The function `sr_load_float_image`, after `rb_scan_args`; parameters as for
`sr_load_image`. There is no `rb_obj_respond_to` test in this function. The length is
`x * y * comp * sizeof (float)`: the product of the three `int`s is converted to `size_t`
for the last multiplication and the result is stored in a `long`. -/
def sr_load_float_image {σ : Type} (stbi_loadf_from_callbacks : Int → Decoder)
    (sr_callbacks : Option (Source σ)) (sr_req_comp : Option Int) (block : Option Block)
    (w : World σ) : Except Exn RObject × World σ :=
  match sr_callbacks with
  | none => (.error .ArgumentError, w)
  | some user =>
    let components0 : Int :=
      match sr_req_comp with
      | some n => n
      | none => STBI_default
    match (stbi_loadf_from_callbacks components0).run (s_st_callbacks σ) user
        (enter_decoder w) with
    | (.error e, w1) => (.error e, w1)
    | (.ok data, w1) =>
      let sr_image_data : Except Exn RObject :=
        match data with
        | some img =>
          -- components[!components[0]]
          let comp := if components0 = 0 then img.comp else components0
          let length :=
            to_long (to_size_t
              (to_size_t (to_int (to_int (img.x * img.y) * comp)) * sizeof_float))
          match rb_external_str_new img.data length with
          | .error e => .error e
          | .ok str => .ok (.array [str, .fixnum img.x, .fixnum img.y, .fixnum comp])
        | none => .ok .nil
      match sr_image_data with
      | .error e => (.error e, w1)
      | .ok v =>
        match !NIL_P v, block with
        | true, some b => rb_yield_splat b v w1
        | _, _ => (.ok v, w1)

/-! ## The conversion setters -/

/-- A Ruby numeric passed to a setter: an Integer, or a Float carrying a C `double` of the
abstract type `D`. -/
inductive Numeric (D : Type) where
  | integer (n : Int)
  | float (d : D)

/-- The macro `NUM2DBL` on numerics; `ofInt` is the conversion of an Integer to `double`. -/
def NUM2DBL {D : Type} (ofInt : Int → D) : Numeric D → D
  | .integer n => ofInt n
  | .float d => d

/-- A call into the decoder library made by a setter, with the `float` argument passed. -/
inductive StbiCall (F : Type) where
  | stbi_hdr_to_ldr_gamma (gamma : F)
  | stbi_hdr_to_ldr_scale (scale : F)
  | stbi_ldr_to_hdr_gamma (gamma : F)
  | stbi_ldr_to_hdr_scale (scale : F)

/-- The function `sr_set_hdr_to_ldr_gamma`; `toFloat` is the cast `(float)`. The result is
the returned value and the library calls made. -/
def sr_set_hdr_to_ldr_gamma {D F : Type} (ofInt : Int → D) (toFloat : D → F)
    (gamma : Numeric D) : Numeric D × List (StbiCall F) :=
  (gamma, [.stbi_hdr_to_ldr_gamma (toFloat (NUM2DBL ofInt gamma))])

/-- The function `sr_set_hdr_to_ldr_scale`. -/
def sr_set_hdr_to_ldr_scale {D F : Type} (ofInt : Int → D) (toFloat : D → F)
    (scale : Numeric D) : Numeric D × List (StbiCall F) :=
  (scale, [.stbi_hdr_to_ldr_scale (toFloat (NUM2DBL ofInt scale))])

/-- The function `sr_set_ldr_to_hdr_gamma`. -/
def sr_set_ldr_to_hdr_gamma {D F : Type} (ofInt : Int → D) (toFloat : D → F)
    (gamma : Numeric D) : Numeric D × List (StbiCall F) :=
  (gamma, [.stbi_ldr_to_hdr_gamma (toFloat (NUM2DBL ofInt gamma))])

/-- The function `sr_set_ldr_to_hdr_scale`. -/
def sr_set_ldr_to_hdr_scale {D F : Type} (ofInt : Int → D) (toFloat : D → F)
    (scale : Numeric D) : Numeric D × List (StbiCall F) :=
  (scale, [.stbi_ldr_to_hdr_scale (toFloat (NUM2DBL ofInt scale))])

/-! ## Concrete sources, decoders and worlds used for evaluation -/

/-- Initial world for a source without state. -/
def w0 : World Unit :=
  { src := (), calls := [], warnings := [], decodes := 0, yields := 0 }

/-- A source that responds to `read`, `skip` and `eof?` like an `IO` at end of file:
`read` returns `nil`, `eof?` returns `true`. -/
def file_at_end : Source Unit :=
  { responds := fun m => m != .eof,
    invoke := fun m _ s =>
      match m with
      | .eof_qm => (.ok .true_, s)
      | _ => (.ok .nil, s) }

/-- An object that responds to none of the four methods. -/
def bare_object : Source Unit :=
  { responds := fun _ => false, invoke := fun _ _ s => (.ok .nil, s) }

/-- A source that responds to `read` only; `read` returns the one-byte String `"A"`. -/
def read_only : Source Unit :=
  { responds := fun m => m == .read, invoke := fun _ _ s => (.ok (.string [65]), s) }

/-- A source that responds to `read` and `eof` but not to `eof?`; `eof` returns `true`. -/
def eof_only : Source Unit :=
  { responds := fun m => m == .read || m == .eof,
    invoke := fun m _ s =>
      match m with
      | .eof => (.ok .true_, s)
      | _ => (.ok .nil, s) }

/-- A source whose `read` ignores the requested length and returns eight bytes. -/
def long_reader : Source Unit :=
  { responds := fun m => m == .read || m == .eof_qm,
    invoke := fun m _ s =>
      match m with
      | .read => (.ok (.string [65, 66, 67, 68, 69, 70, 71, 72]), s)
      | _ => (.ok .false_, s) }

/-- A source with `skip` and `read`; both return `nil`. -/
def skipper : Source Unit :=
  { responds := fun m => m != .eof, invoke := fun _ _ s => (.ok .nil, s) }

/-- A decoder that reports a 2 x 3 image with 4 native components. -/
def small_decoder : Int → Decoder :=
  fun _ => .done (some { data := fun i => i, x := 2, y := 3, comp := 4 })

/-- A decoder that reports a 65536 x 65536 image with one component. -/
def wide_decoder : Int → Decoder :=
  fun _ => .done (some { data := fun _ => 0, x := 65536, y := 65536, comp := 1 })

/-- A decoder that reports a 46341 x 46341 image with one component. -/
def large_decoder : Int → Decoder :=
  fun _ => .done (some { data := fun _ => 0, x := 46341, y := 46341, comp := 1 })

/-- A decoder that asks for four bytes and then reports failure. -/
def probing_decoder : Int → Decoder :=
  fun _ => .read 4 (fun _ => .done none)

/-! ## Auxiliary definitions for the statements -/

/-- Modelled from the spec: the process-wide GlobalConversionConfig with its four
floating-point parameters, held inside the decoder library. -/
structure GlobalConversionConfig (F : Type) where
  hdr_to_ldr_gamma : F
  hdr_to_ldr_scale : F
  ldr_to_hdr_gamma : F
  ldr_to_hdr_scale : F

/-- Modelled from the spec: the four setters of the decoder library, which are not part of
the binding file; each one mutates the parameter it is named after. -/
def StbiCall.apply {F : Type} : StbiCall F → GlobalConversionConfig F → GlobalConversionConfig F
  | .stbi_hdr_to_ldr_gamma gamma, cfg => { cfg with hdr_to_ldr_gamma := gamma }
  | .stbi_hdr_to_ldr_scale scale, cfg => { cfg with hdr_to_ldr_scale := scale }
  | .stbi_ldr_to_hdr_gamma gamma, cfg => { cfg with ldr_to_hdr_gamma := gamma }
  | .stbi_ldr_to_hdr_scale scale, cfg => { cfg with ldr_to_hdr_scale := scale }

/-- Effect of a sequence of library calls on the configuration. -/
def apply_calls {F : Type} (calls : List (StbiCall F)) (cfg : GlobalConversionConfig F) :
    GlobalConversionConfig F :=
  calls.foldl (fun c call => call.apply c) cfg

/-- Auxiliary (not a function of the source file): normal form of what both loaders do with
a successfully decoded image once the length `len` is computed and the component count
`comp` is selected. A negative length raises, otherwise the array is built and returned, or
yielded to the block. Used to state `sr_load_image_eq` and `sr_load_float_image_eq`. -/
def deliver {σ : Type} (img : Image) (comp len : Int) (blk : Option Block) (w1 : World σ) :
    Except Exn RObject × World σ :=
  if len < 0 then (.error .ArgumentError, w1)
  else
    match blk with
    | some b =>
      (b [.string ((List.range len.toNat).map img.data), .fixnum img.x, .fixnum img.y,
          .fixnum comp], { w1 with yields := w1.yields + 1 })
    | none =>
      (.ok (.array [.string ((List.range len.toNat).map img.data), .fixnum img.x,
          .fixnum img.y, .fixnum comp]), w1)

/-! ## Frame lemmas: what the callbacks and the decoder run leave untouched -/

/-- A method call through `rb_check_funcall` does not touch the observation counters or the warnings. -/
theorem rb_check_funcall_frame {σ : Type} (obj : Source σ) (mid : Meth)
    (argv : List RObject) (w : World σ) :
    (rb_check_funcall obj mid argv w).2.decodes = w.decodes ∧
    (rb_check_funcall obj mid argv w).2.yields = w.yields ∧
    (rb_check_funcall obj mid argv w).2.warnings = w.warnings := by
  unfold rb_check_funcall
  split <;> simp

/-- When the object responds, `rb_check_funcall` invokes the method exactly once. -/
theorem rb_check_funcall_responds {σ : Type} (obj : Source σ) (mid : Meth)
    (argv : List RObject) (w : World σ) (h : obj.responds mid = true) :
    rb_check_funcall obj mid argv w =
      ((obj.invoke mid argv w.src).1.map some,
        { w with src := (obj.invoke mid argv w.src).2, calls := w.calls ++ [(mid, argv)] }) := by
  simp [rb_check_funcall, h]

/-- When the object does not respond, `rb_check_funcall` returns `Qundef` and invokes nothing. -/
theorem rb_check_funcall_undef {σ : Type} (obj : Source σ) (mid : Meth)
    (argv : List RObject) (w : World σ) (h : obj.responds mid = false) :
    rb_check_funcall obj mid argv w = (.ok Qundef, w) := by
  simp [rb_check_funcall, h]

/-- The read callback neither enters the decoder nor yields. -/
theorem sr_read_callback_frame {σ : Type} (user : Source σ) (size : Int) (w : World σ) :
    (sr_read_callback user size w).2.decodes = w.decodes ∧
    (sr_read_callback user size w).2.yields = w.yields := by
  have h := rb_check_funcall_frame user .read [.fixnum size] w
  unfold sr_read_callback
  dsimp only
  generalize rb_check_funcall user .read [.fixnum size] w = r at h ⊢
  obtain ⟨r1, w1⟩ := r
  simp only at h
  cases r1 with
  | error e => exact ⟨h.1, h.2.1⟩
  | ok v =>
    cases v with
    | none => exact ⟨h.1, h.2.1⟩
    | some d =>
      simp only
      split
      · split
        · exact ⟨h.1, h.2.1⟩
        · split <;> exact ⟨h.1, h.2.1⟩
      · exact ⟨h.1, h.2.1⟩

/-- The skip callback neither enters the decoder nor yields. -/
theorem sr_skip_callback_frame {σ : Type} (user : Source σ) (size : Nat) (w : World σ) :
    (sr_skip_callback user size w).2.decodes = w.decodes ∧
    (sr_skip_callback user size w).2.yields = w.yields := by
  have h := rb_check_funcall_frame user .skip [.fixnum (size : Int)] w
  unfold sr_skip_callback
  dsimp only
  generalize rb_check_funcall user .skip [.fixnum (size : Int)] w = r at h ⊢
  obtain ⟨r1, w1⟩ := r
  simp only at h
  cases r1 with
  | error e => exact ⟨h.1, h.2.1⟩
  | ok v =>
    cases v with
    | some d => exact ⟨h.1, h.2.1⟩
    | none =>
      have h2 := rb_check_funcall_frame user .read [.fixnum (size : Int)] w1
      simp only
      generalize rb_check_funcall user .read [.fixnum (size : Int)] w1 = r2 at h2 ⊢
      obtain ⟨r3, w2⟩ := r2
      simp only at h2
      cases r3 with
      | error e => exact ⟨h2.1.trans h.1, h2.2.1.trans h.2.1⟩
      | ok v2 =>
        cases v2 with
        | some d => exact ⟨h2.1.trans h.1, h2.2.1.trans h.2.1⟩
        | none => exact ⟨h2.1.trans h.1, h2.2.1.trans h.2.1⟩

/-- The end-of-stream callback neither enters the decoder nor yields. -/
theorem sr_eof_callback_frame {σ : Type} (user : Source σ) (w : World σ) :
    (sr_eof_callback user w).2.decodes = w.decodes ∧
    (sr_eof_callback user w).2.yields = w.yields := by
  have h := rb_check_funcall_frame user .eof_qm [] w
  unfold sr_eof_callback
  generalize rb_check_funcall user .eof_qm [] w = r at h ⊢
  obtain ⟨r1, w1⟩ := r
  simp only at h
  cases r1 with
  | error e => exact ⟨h.1, h.2.1⟩
  | ok v =>
    cases v with
    | some d => exact ⟨h.1, h.2.1⟩
    | none =>
      have h2 := rb_check_funcall_frame user .eof_qm [] w1
      simp only
      generalize rb_check_funcall user .eof_qm [] w1 = r2 at h2 ⊢
      obtain ⟨r3, w2⟩ := r2
      simp only at h2
      cases r3 with
      | error e => exact ⟨h2.1.trans h.1, h2.2.1.trans h.2.1⟩
      | ok v2 =>
        cases v2 with
        | some d => exact ⟨h2.1.trans h.1, h2.2.1.trans h.2.1⟩
        | none => exact ⟨h2.1.trans h.1, h2.2.1.trans h.2.1⟩

/-- A decoder run against the binding callbacks neither enters the decoder again nor yields. -/
theorem Decoder.run_frame {σ : Type} (user : Source σ) (d : Decoder) (w : World σ) :
    (d.run (s_st_callbacks σ) user w).2.decodes = w.decodes ∧
    (d.run (s_st_callbacks σ) user w).2.yields = w.yields := by
  induction d generalizing w with
  | done result => exact ⟨rfl, rfl⟩
  | read size k ih =>
    have h := sr_read_callback_frame user size w
    unfold Decoder.run
    simp only [s_st_callbacks]
    generalize sr_read_callback user size w = r at h ⊢
    obtain ⟨r1, w1⟩ := r
    cases r1 with
    | error e => exact h
    | ok v => exact ⟨(ih v w1).1.trans h.1, (ih v w1).2.trans h.2⟩
  | skip n k ih =>
    have h := sr_skip_callback_frame user n w
    unfold Decoder.run
    simp only [s_st_callbacks]
    generalize sr_skip_callback user n w = r at h ⊢
    obtain ⟨r1, w1⟩ := r
    cases r1 with
    | error e => exact h
    | ok v => exact ⟨(ih w1).1.trans h.1, (ih w1).2.trans h.2⟩
  | eof k ih =>
    have h := sr_eof_callback_frame user w
    unfold Decoder.run
    simp only [s_st_callbacks]
    generalize sr_eof_callback user w = r at h ⊢
    obtain ⟨r1, w1⟩ := r
    cases r1 with
    | error e => exact h
    | ok v => exact ⟨(ih v w1).1.trans h.1, (ih v w1).2.trans h.2⟩

/-- Yielding only advances the yield counter. -/
theorem rb_yield_splat_frame {σ : Type} (b : Block) (v : RObject) (w : World σ) :
    (rb_yield_splat b v w).2 = { w with yields := w.yields + 1 } := by
  unfold rb_yield_splat
  split <;> rfl

/-! ## C integer arithmetic of the length computation -/

/-- A value inside the `int` range is stored unchanged. -/
theorem to_int_of_range (n : Int) (h0 : -2147483648 ≤ n) (h1 : n ≤ INT_MAX) : to_int n = n := by
  unfold INT_MAX at h1
  unfold to_int
  omega

/-- Wrapping the intermediate product does not change the wrapped final product. -/
theorem to_int_mul_to_int (a c : Int) : to_int (to_int a * c) = to_int (a * c) := by
  have h : to_int a = a - 4294967296 * ((a + 2147483648) / 4294967296) := by
    unfold to_int
    omega
  rw [h]
  unfold to_int
  have e : (a - 4294967296 * ((a + 2147483648) / 4294967296)) * c + 2147483648 =
      a * c + 2147483648 - 4294967296 * (((a + 2147483648) / 4294967296) * c) := by ring
  rw [e]
  omega

/-- The 8-bit length expression is exact when the product is a non-negative `int`. -/
theorem image_length_of_range (x y comp : Int) (h0 : 0 ≤ x * y * comp)
    (h1 : x * y * comp ≤ INT_MAX) :
    to_long (to_int (to_int (x * y) * comp)) = x * y * comp := by
  rw [to_int_mul_to_int, to_int_of_range _ (by omega) h1]
  unfold INT_MAX at h1
  unfold to_long
  omega

/-- The float length expression is exact when the product is a non-negative `int`. -/
theorem float_image_length_of_range (x y comp : Int) (h0 : 0 ≤ x * y * comp)
    (h1 : x * y * comp ≤ INT_MAX) :
    to_long (to_size_t (to_size_t (to_int (to_int (x * y) * comp)) * sizeof_float)) =
      x * y * comp * 4 := by
  rw [to_int_mul_to_int, to_int_of_range _ (by omega) h1]
  unfold INT_MAX at h1
  unfold to_long to_size_t sizeof_float
  omega

/-- The 8-bit length expression equals the mathematical product exactly when the product fits a C `int`. -/
theorem image_length_exact_iff (x y comp : Int) :
    to_long (to_int (to_int (x * y) * comp)) = x * y * comp ↔
      (-2147483648 ≤ x * y * comp ∧ x * y * comp ≤ INT_MAX) := by
  rw [to_int_mul_to_int]
  unfold INT_MAX to_long to_int
  omega

/-! ## Normal forms of the two loaders -/

/-- Either the source passes the capability test of `sr_load_image` or it fails it. -/
theorem responds_dichotomy {σ : Type} (user : Source σ) :
    (user.responds .read = true ∧
      (user.responds .eof = true ∨ user.responds .eof_qm = true)) ∨
    (user.responds .read = false ∨
      (user.responds .eof = false ∧ user.responds .eof_qm = false)) := by
  cases user.responds .read <;> cases user.responds .eof <;>
    cases user.responds .eof_qm <;> simp

/-- A source failing the capability test makes `sr_load_image` raise `TypeError` with the world untouched. -/
theorem sr_load_image_rejects {σ : Type} (dec : Int → Decoder) (user : Source σ)
    (req : Option Int) (blk : Option Block) (w : World σ)
    (h : user.responds .read = false ∨
      (user.responds .eof = false ∧ user.responds .eof_qm = false)) :
    sr_load_image dec (some user) req blk w = (.error .TypeError, w) := by
  have hc : (!rb_obj_respond_to user .read ||
        !(rb_obj_respond_to user .eof || rb_obj_respond_to user .eof_qm)) = true := by
    rcases h with h | ⟨h1, h2⟩
    · simp [rb_obj_respond_to, h]
    · simp [rb_obj_respond_to, h1, h2]
  unfold sr_load_image
  simp only [hc, ↓reduceIte]

/-- A source passing the capability test reaches the decoder exactly once, and every call seen by the source is one made by the decoder run. -/
theorem sr_load_image_checked {σ : Type} (dec : Int → Decoder) (user : Source σ)
    (req : Option Int) (blk : Option Block) (w : World σ)
    (hread : user.responds .read = true)
    (heof : user.responds .eof = true ∨ user.responds .eof_qm = true) :
    (sr_load_image dec (some user) req blk w).2.decodes = w.decodes + 1 ∧
    (sr_load_image dec (some user) req blk w).2.calls =
      ((dec (req.getD STBI_default)).run (s_st_callbacks σ) user (enter_decoder w)).2.calls := by
  have hc : (!rb_obj_respond_to user .read ||
        !(rb_obj_respond_to user .eof || rb_obj_respond_to user .eof_qm)) = false := by
    rcases heof with h | h <;> simp [rb_obj_respond_to, hread, h]
  have hreq : (match req with | some n => n | none => STBI_default) = req.getD STBI_default := by
    cases req <;> rfl
  have hf := Decoder.run_frame user (dec (req.getD STBI_default)) (enter_decoder w)
  unfold sr_load_image
  simp only [hc, hreq, Bool.false_eq_true, ↓reduceIte]
  generalize (dec (req.getD STBI_default)).run (s_st_callbacks σ) user (enter_decoder w) = r
    at hf ⊢
  obtain ⟨r1, w1⟩ := r
  have hd : w1.decodes = w.decodes + 1 := hf.1
  cases r1 with
  | error e => exact ⟨hd, rfl⟩
  | ok data =>
    dsimp only
    split
    · exact ⟨hd, rfl⟩
    · split
      · rw [rb_yield_splat_frame]; exact ⟨hd, rfl⟩
      · exact ⟨hd, rfl⟩

/-- Normal form of `sr_load_image` for a source that passes the capability test. -/
theorem sr_load_image_eq {σ : Type} (dec : Int → Decoder) (user : Source σ)
    (req : Option Int) (blk : Option Block) (w : World σ)
    (hread : user.responds .read = true)
    (heof : user.responds .eof = true ∨ user.responds .eof_qm = true) :
    sr_load_image dec (some user) req blk w =
      match (dec (req.getD STBI_default)).run (s_st_callbacks σ) user (enter_decoder w) with
      | (.error e, w1) => (.error e, w1)
      | (.ok none, w1) => (.ok .nil, w1)
      | (.ok (some img), w1) =>
        deliver img (if req.getD STBI_default = 0 then img.comp else req.getD STBI_default)
          (to_long (to_int (to_int (img.x * img.y) *
            (if req.getD STBI_default = 0 then img.comp else req.getD STBI_default))))
          blk w1 := by
  have hc : (!rb_obj_respond_to user .read ||
        !(rb_obj_respond_to user .eof || rb_obj_respond_to user .eof_qm)) = false := by
    rcases heof with h | h <;> simp [rb_obj_respond_to, hread, h]
  have hreq : (match req with | some n => n | none => STBI_default) = req.getD STBI_default := by
    cases req <;> rfl
  unfold sr_load_image
  simp only [hc, hreq, Bool.false_eq_true, ↓reduceIte]
  generalize (dec (req.getD STBI_default)).run (s_st_callbacks σ) user (enter_decoder w) = r
  obtain ⟨r1, w1⟩ := r
  cases r1 with
  | error e => rfl
  | ok data =>
    cases data with
    | none => cases blk <;> rfl
    | some img =>
      dsimp only
      generalize (if req.getD STBI_default = 0 then img.comp else req.getD STBI_default) = c
      generalize to_long (to_int (to_int (img.x * img.y) * c)) = len
      by_cases hl : len < 0
      · simp [deliver, rb_external_str_new, hl]
      · cases blk <;> simp [deliver, rb_external_str_new, hl, rb_yield_splat, NIL_P]

/-- Normal form of `sr_load_float_image` for a non-nil source. -/
theorem sr_load_float_image_eq {σ : Type} (dec : Int → Decoder) (user : Source σ)
    (req : Option Int) (blk : Option Block) (w : World σ) :
    sr_load_float_image dec (some user) req blk w =
      match (dec (req.getD STBI_default)).run (s_st_callbacks σ) user (enter_decoder w) with
      | (.error e, w1) => (.error e, w1)
      | (.ok none, w1) => (.ok .nil, w1)
      | (.ok (some img), w1) =>
        deliver img (if req.getD STBI_default = 0 then img.comp else req.getD STBI_default)
          (to_long (to_size_t (to_size_t (to_int (to_int (img.x * img.y) *
            (if req.getD STBI_default = 0 then img.comp else req.getD STBI_default)))
              * sizeof_float)))
          blk w1 := by
  have hreq : (match req with | some n => n | none => STBI_default) = req.getD STBI_default := by
    cases req <;> rfl
  unfold sr_load_float_image
  simp only [hreq]
  generalize (dec (req.getD STBI_default)).run (s_st_callbacks σ) user (enter_decoder w) = r
  obtain ⟨r1, w1⟩ := r
  cases r1 with
  | error e => rfl
  | ok data =>
    cases data with
    | none => cases blk <;> rfl
    | some img =>
      dsimp only
      generalize (if req.getD STBI_default = 0 then img.comp else req.getD STBI_default) = c
      generalize to_long (to_size_t (to_size_t (to_int (to_int (img.x * img.y) * c))
        * sizeof_float)) = len
      by_cases hl : len < 0
      · simp [deliver, rb_external_str_new, hl]
      · cases blk <;> simp [deliver, rb_external_str_new, hl, rb_yield_splat, NIL_P]

/-- When the decoder reports failure both loaders return `nil` and leave the world as the decoder left it: no array is built and no block is yielded to, whatever block is given. -/
theorem load_failure_returns_nil {σ : Type} (dec : Int → Decoder) (user : Source σ)
    (req : Option Int) (blk : Option Block) (w w1 : World σ)
    (hrun : (dec (req.getD STBI_default)).run (s_st_callbacks σ) user (enter_decoder w) =
      (.ok none, w1)) :
    (user.responds .read = true →
      (user.responds .eof = true ∨ user.responds .eof_qm = true) →
      sr_load_image dec (some user) req blk w = (.ok .nil, w1)) ∧
    sr_load_float_image dec (some user) req blk w = (.ok .nil, w1) := by
  constructor
  · intro hread heof
    rw [sr_load_image_eq dec user req blk w hread heof, hrun]
  · rw [sr_load_float_image_eq dec user req blk w, hrun]

/-- When the decoder succeeds and `x * y * comp` is a non-negative C `int`, `sr_load_image` builds the array with a data string of exactly `x * y * comp` bytes, and returns it or yields it to the block. -/
theorem load_image_in_range {σ : Type} (dec : Int → Decoder) (user : Source σ)
    (req : Option Int) (blk : Option Block) (w w1 : World σ) (img : Image) (comp : Int)
    (hread : user.responds .read = true)
    (heof : user.responds .eof = true ∨ user.responds .eof_qm = true)
    (hrun : (dec (req.getD STBI_default)).run (s_st_callbacks σ) user (enter_decoder w) =
      (.ok (some img), w1))
    (hcomp : comp = if req.getD STBI_default = 0 then img.comp else req.getD STBI_default)
    (h0 : 0 ≤ img.x * img.y * comp) (h1 : img.x * img.y * comp ≤ INT_MAX) :
    ∃ bytes : List Nat, (bytes.length : Int) = img.x * img.y * comp ∧
      sr_load_image dec (some user) req blk w =
        match blk with
        | none => (.ok (.array [.string bytes, .fixnum img.x, .fixnum img.y, .fixnum comp]), w1)
        | some b => (b [.string bytes, .fixnum img.x, .fixnum img.y, .fixnum comp],
            { w1 with yields := w1.yields + 1 }) := by
  refine ⟨(List.range (img.x * img.y * comp).toNat).map img.data, ?_, ?_⟩
  · simp
    omega
  · rw [sr_load_image_eq dec user req blk w hread heof, hrun]
    dsimp only
    rw [← hcomp, image_length_of_range _ _ _ h0 h1]
    unfold deliver
    rw [if_neg (by omega)]
    cases blk <;> rfl

/-- When the decoder succeeds and `x * y * comp` is a non-negative C `int`, `sr_load_float_image` builds the array with a data string of exactly `x * y * comp * 4` bytes, and returns it or yields it to the block. -/
theorem load_float_image_in_range {σ : Type} (dec : Int → Decoder) (user : Source σ)
    (req : Option Int) (blk : Option Block) (w w1 : World σ) (img : Image) (comp : Int)
    (hrun : (dec (req.getD STBI_default)).run (s_st_callbacks σ) user (enter_decoder w) =
      (.ok (some img), w1))
    (hcomp : comp = if req.getD STBI_default = 0 then img.comp else req.getD STBI_default)
    (h0 : 0 ≤ img.x * img.y * comp) (h1 : img.x * img.y * comp ≤ INT_MAX) :
    ∃ bytes : List Nat, (bytes.length : Int) = img.x * img.y * comp * 4 ∧
      sr_load_float_image dec (some user) req blk w =
        match blk with
        | none => (.ok (.array [.string bytes, .fixnum img.x, .fixnum img.y, .fixnum comp]), w1)
        | some b => (b [.string bytes, .fixnum img.x, .fixnum img.y, .fixnum comp],
            { w1 with yields := w1.yields + 1 }) := by
  refine ⟨(List.range (img.x * img.y * comp * 4).toNat).map img.data, ?_, ?_⟩
  · simp
    omega
  · rw [sr_load_float_image_eq dec user req blk w, hrun]
    dsimp only
    rw [← hcomp, float_image_length_of_range _ _ _ h0 h1]
    unfold deliver
    rw [if_neg (by omega)]
    cases blk <;> rfl

/-- The end-of-stream callback consults `eof?` only: without `eof?` it warns and returns false whatever `eof` would say; with `eof?` it calls it once and returns its truthiness. -/
theorem eof_callback_outcomes {σ : Type} (user : Source σ) (w : World σ) :
    (user.responds .eof_qm = false →
      sr_eof_callback user w = (.ok false, rb_warn .no_eof w)) ∧
    (user.responds .eof_qm = true →
      (sr_eof_callback user w).2.calls = w.calls ++ [(.eof_qm, [])] ∧
      (sr_eof_callback user w).1 = (user.invoke .eof_qm [] w.src).1.map RTEST) := by
  constructor
  · intro h
    unfold sr_eof_callback
    rw [rb_check_funcall_undef user .eof_qm _ w h]
    dsimp only [Qundef]
    rw [rb_check_funcall_undef user .eof_qm _ w h]
    rfl
  · intro h
    unfold sr_eof_callback
    rw [rb_check_funcall_responds user .eof_qm _ w h]
    cases (user.invoke .eof_qm [] w.src).1 <;> exact ⟨rfl, rfl⟩

/-! ## The claims -/

/-- Claim C1, evaluated where it fails: the decoder reports a 65536 x 65536 image with one
component. The int product `x * y * comp` wraps to 0, so both loaders return an empty data
string next to width 65536, height 65536 and 1 component, while the claim asks for
`65536 * 65536 * 1` bytes (times 4 for the float loader). -/
theorem load_image_length_wraps :
    sr_load_image wide_decoder (some file_at_end) none none w0 =
      (.ok (.array [.string [], .fixnum 65536, .fixnum 65536, .fixnum 1]),
        enter_decoder w0) ∧
    sr_load_float_image wide_decoder (some file_at_end) none none w0 =
      (.ok (.array [.string [], .fixnum 65536, .fixnum 65536, .fixnum 1]),
        enter_decoder w0) ∧
    (([] : List Nat).length : Int) ≠ 65536 * 65536 * 1 ∧
    (([] : List Nat).length : Int) ≠ 65536 * 65536 * 1 * 4 :=
  ⟨rfl, rfl, by decide, by decide⟩

/-- Claim C2: whenever `load_image` or `load_float_image` returns its result array, the
decoder has reported an image, the fourth element is the requested count when one is given
and differs from `COMPONENTS_DEFAULT`, and the native count reported by the decoder when the
argument is omitted, `nil` or `COMPONENTS_DEFAULT`; the byte length of the data string is the
C length expression evaluated with that same count; and with a block the very same four
elements are what the block receives. -/
theorem load_component_count {σ : Type} (dec : Int → Decoder) (user : Source σ)
    (req : Option Int) (w w' : World σ) (elems : List RObject) :
    (sr_load_image dec (some user) req none w = (.ok (.array elems), w') →
      ∃ img bytes c,
        ((dec (req.getD STBI_default)).run (s_st_callbacks σ) user (enter_decoder w)).1 =
          .ok (some img) ∧
        elems = [.string bytes, .fixnum img.x, .fixnum img.y, .fixnum c] ∧
        (∀ r, req = some r → r ≠ STBI_default → c = r) ∧
        (req = none ∨ req = some STBI_default → c = img.comp) ∧
        (bytes.length : Int) = to_long (to_int (to_int (img.x * img.y) * c)) ∧
        ∀ b : Block, sr_load_image dec (some user) req (some b) w =
          (b elems, { w' with yields := w'.yields + 1 })) ∧
    (sr_load_float_image dec (some user) req none w = (.ok (.array elems), w') →
      ∃ img bytes c,
        ((dec (req.getD STBI_default)).run (s_st_callbacks σ) user (enter_decoder w)).1 =
          .ok (some img) ∧
        elems = [.string bytes, .fixnum img.x, .fixnum img.y, .fixnum c] ∧
        (∀ r, req = some r → r ≠ STBI_default → c = r) ∧
        (req = none ∨ req = some STBI_default → c = img.comp) ∧
        (bytes.length : Int) =
          to_long (to_size_t (to_size_t (to_int (to_int (img.x * img.y) * c)) * sizeof_float)) ∧
        ∀ b : Block, sr_load_float_image dec (some user) req (some b) w =
          (b elems, { w' with yields := w'.yields + 1 })) := by
  have hsel : ∀ n : Int,
      (∀ r, req = some r → r ≠ STBI_default →
        (if req.getD STBI_default = 0 then n else req.getD STBI_default) = r) ∧
      (req = none ∨ req = some STBI_default →
        (if req.getD STBI_default = 0 then n else req.getD STBI_default) = n) := by
    intro n
    constructor
    · intro r hr hne
      subst hr
      have : r ≠ 0 := hne
      simp [this]
    · intro h
      rcases h with h | h <;> subst h <;> simp [STBI_default]
  constructor
  · intro h
    rcases responds_dichotomy user with ⟨hread, heof⟩ | hbad
    · have hb := fun b : Block => sr_load_image_eq dec user req (some b) w hread heof
      rw [sr_load_image_eq dec user req none w hread heof] at h
      generalize (dec (req.getD STBI_default)).run (s_st_callbacks σ) user
        (enter_decoder w) = r at h hb ⊢
      obtain ⟨r1, w1⟩ := r
      cases r1 with
      | error e => simp at h
      | ok data =>
        cases data with
        | none => simp at h
        | some img =>
          dsimp only at h hb
          generalize hc : (if req.getD STBI_default = 0 then img.comp
            else req.getD STBI_default) = c at h hb
          generalize hlen : to_long (to_int (to_int (img.x * img.y) * c)) = len at h hb
          unfold deliver at h hb
          by_cases hl : len < 0
          · simp [hl] at h
          · simp only [hl, ↓reduceIte, Prod.mk.injEq, Except.ok.injEq, RObject.array.injEq] at h hb
            obtain ⟨he, hw⟩ := h
            refine ⟨img, (List.range len.toNat).map img.data, c, rfl, he.symm, ?_, ?_, ?_, ?_⟩
            · intro r hr hne; rw [← hc]; exact (hsel img.comp).1 r hr hne
            · intro hr; rw [← hc]; exact (hsel img.comp).2 hr
            · simp; omega
            · intro b; rw [hb b, ← he, ← hw]
    · rw [sr_load_image_rejects dec user req none w hbad] at h
      simp at h
  · intro h
    have hb := fun b : Block => sr_load_float_image_eq dec user req (some b) w
    rw [sr_load_float_image_eq dec user req none w] at h
    generalize (dec (req.getD STBI_default)).run (s_st_callbacks σ) user
      (enter_decoder w) = r at h hb ⊢
    obtain ⟨r1, w1⟩ := r
    cases r1 with
    | error e => simp at h
    | ok data =>
      cases data with
      | none => simp at h
      | some img =>
        dsimp only at h hb
        generalize hc : (if req.getD STBI_default = 0 then img.comp
          else req.getD STBI_default) = c at h hb
        generalize hlen : to_long (to_size_t (to_size_t (to_int (to_int (img.x * img.y) * c))
          * sizeof_float)) = len at h hb
        unfold deliver at h hb
        by_cases hl : len < 0
        · simp [hl] at h
        · simp only [hl, ↓reduceIte, Prod.mk.injEq, Except.ok.injEq, RObject.array.injEq] at h hb
          obtain ⟨he, hw⟩ := h
          refine ⟨img, (List.range len.toNat).map img.data, c, rfl, he.symm, ?_, ?_, ?_, ?_⟩
          · intro r hr hne; rw [← hc]; exact (hsel img.comp).1 r hr hne
          · intro hr; rw [← hc]; exact (hsel img.comp).2 hr
          · simp; omega
          · intro b; rw [hb b, ← he, ← hw]

/-- Claim C2 at concrete inputs: three components requested from a 2 x 3 image with four
native components through `sr_load_image`, and the default through `sr_load_float_image`. -/
theorem load_component_count_witness :
    (sr_load_image small_decoder (some file_at_end) (some 3) none w0 =
      (.ok (.array [.string (List.range 18), .fixnum 2, .fixnum 3, .fixnum 3]),
        enter_decoder w0) ∧
    ∃ img bytes c,
      ((small_decoder ((some (3 : Int)).getD STBI_default)).run (s_st_callbacks Unit)
        file_at_end (enter_decoder w0)).1 = .ok (some img) ∧
      [RObject.string (List.range 18), .fixnum 2, .fixnum 3, .fixnum 3] =
        [.string bytes, .fixnum img.x, .fixnum img.y, .fixnum c] ∧
      (∀ r, some (3 : Int) = some r → r ≠ STBI_default → c = r) ∧
      (some (3 : Int) = none ∨ some (3 : Int) = some STBI_default → c = img.comp) ∧
      (bytes.length : Int) = to_long (to_int (to_int (img.x * img.y) * c)) ∧
      ∀ b : Block, sr_load_image small_decoder (some file_at_end) (some 3) (some b) w0 =
        (b [.string (List.range 18), .fixnum 2, .fixnum 3, .fixnum 3],
          { enter_decoder w0 with yields := (enter_decoder w0).yields + 1 })) ∧
    (sr_load_float_image small_decoder (some file_at_end) none none w0 =
      (.ok (.array [.string (List.range 96), .fixnum 2, .fixnum 3, .fixnum 4]),
        enter_decoder w0) ∧
    ∃ img bytes c,
      ((small_decoder ((none : Option Int).getD STBI_default)).run (s_st_callbacks Unit)
        file_at_end (enter_decoder w0)).1 = .ok (some img) ∧
      [RObject.string (List.range 96), .fixnum 2, .fixnum 3, .fixnum 4] =
        [.string bytes, .fixnum img.x, .fixnum img.y, .fixnum c] ∧
      (∀ r, (none : Option Int) = some r → r ≠ STBI_default → c = r) ∧
      ((none : Option Int) = none ∨ (none : Option Int) = some STBI_default →
        c = img.comp) ∧
      (bytes.length : Int) =
        to_long (to_size_t (to_size_t (to_int (to_int (img.x * img.y) * c)) * sizeof_float)) ∧
      ∀ b : Block, sr_load_float_image small_decoder (some file_at_end) none (some b) w0 =
        (b [.string (List.range 96), .fixnum 2, .fixnum 3, .fixnum 4],
          { enter_decoder w0 with yields := (enter_decoder w0).yields + 1 })) :=
  ⟨⟨rfl, (load_component_count small_decoder file_at_end (some 3) w0 (enter_decoder w0)
      [.string (List.range 18), .fixnum 2, .fixnum 3, .fixnum 3]).1 rfl⟩,
    ⟨rfl, (load_component_count small_decoder file_at_end none w0 (enter_decoder w0)
      [.string (List.range 96), .fixnum 2, .fixnum 3, .fixnum 4]).2 rfl⟩⟩

/-- Claim C3: `load_image` raises `ArgumentError` for a `nil` source and `TypeError` for a
source that does not respond to `read` or responds to neither `eof` nor `eof?`; in both
cases the world is returned untouched, so the decoder was not entered and no method of the
source was called. A non-nil source that responds to `read` and to `eof` or `eof?` passes:
the decoder is entered exactly once and the calls the source sees are those of the decoder
run. -/
theorem load_image_source_contract {σ : Type} (dec : Int → Decoder) (req : Option Int)
    (blk : Option Block) (w : World σ) :
    sr_load_image dec none req blk w = (.error .ArgumentError, w) ∧
    (∀ user : Source σ,
      (user.responds .read = false ∨
        (user.responds .eof = false ∧ user.responds .eof_qm = false)) →
      sr_load_image dec (some user) req blk w = (.error .TypeError, w)) ∧
    (∀ user : Source σ, user.responds .read = true →
      (user.responds .eof = true ∨ user.responds .eof_qm = true) →
      (sr_load_image dec (some user) req blk w).2.decodes = w.decodes + 1 ∧
      (sr_load_image dec (some user) req blk w).2.calls =
        ((dec (req.getD STBI_default)).run (s_st_callbacks σ) user
          (enter_decoder w)).2.calls) :=
  ⟨rfl, fun user h => sr_load_image_rejects dec user req blk w h,
    fun user hread heof => sr_load_image_checked dec user req blk w hread heof⟩

/-- Claim C3 at concrete inputs: an object without any of the methods is rejected before a
decoder that would read four bytes is entered; a file-like source is handed to it. -/
theorem load_image_source_contract_witness :
    sr_load_image probing_decoder (some bare_object) none none w0 =
      (.error .TypeError, w0) ∧
    (sr_load_image probing_decoder (some file_at_end) none none w0).2.decodes = 1 ∧
    (sr_load_image probing_decoder (some file_at_end) none none w0).2.calls =
      [(.read, [.fixnum 4])] :=
  ⟨(load_image_source_contract probing_decoder none none w0).2.1 bare_object (Or.inl rfl),
    ((load_image_source_contract probing_decoder none none w0).2.2 file_at_end rfl
      (Or.inr rfl)).1,
    ((load_image_source_contract probing_decoder none none w0).2.2 file_at_end rfl
      (Or.inr rfl)).2⟩

/-- Claim C4, evaluated where it fails: `sr_load_float_image` has no capability test. For a
source that responds to `read` only, and for an object that responds to nothing, the decoder
is entered and the call returns `nil` instead of raising; the first source is even read
from. `sr_load_image` rejects the same source with `TypeError` and an untouched world. -/
theorem load_float_image_skips_source_check :
    (sr_load_float_image probing_decoder (some read_only) none none w0).1 = .ok .nil ∧
    (sr_load_float_image probing_decoder (some read_only) none none w0).2.decodes = 1 ∧
    (sr_load_float_image probing_decoder (some read_only) none none w0).2.calls =
      [(.read, [.fixnum 4])] ∧
    sr_load_image probing_decoder (some read_only) none none w0 = (.error .TypeError, w0) ∧
    (sr_load_float_image probing_decoder (some bare_object) none none w0).1 = .ok .nil ∧
    (sr_load_float_image probing_decoder (some bare_object) none none w0).2.decodes = 1 :=
  ⟨rfl, rfl, rfl, rfl, rfl, rfl⟩

/-- Claim C5, evaluated where it fails: for a source that responds to `eof` (returning
`true`) but not to `eof?`, the end-of-stream callback asks for `eof?` twice, never calls
`eof`, warns and returns false. -/
theorem eof_callback_never_calls_eof :
    eof_only.responds .eof = true ∧
    eof_only.responds .eof_qm = false ∧
    (eof_only.invoke .eof [] w0.src).1 = .ok .true_ ∧
    (sr_eof_callback eof_only w0).1 = .ok false ∧
    (sr_eof_callback eof_only w0).2.calls = [] ∧
    (sr_eof_callback eof_only w0).2.warnings = [.no_eof] :=
  ⟨rfl, rfl, rfl, rfl, rfl, rfl⟩

/-- Claim C6 as stated fails for an object that responds to neither `skip` nor `read`: it
does not respond to `skip`, yet no `read` call is made. -/
theorem skip_callback_without_read_calls_nothing :
    bare_object.responds .skip = false ∧
    (sr_skip_callback bare_object 4 w0).2.calls = [] ∧
    (sr_skip_callback bare_object 4 w0).2.calls ≠ [(.read, [.fixnum 4])] :=
  ⟨rfl, rfl, by simp [sr_skip_callback, rb_check_funcall, bare_object, w0, rb_warn, Qundef]⟩

/-- Claim C6, amended: a source that responds to `skip` gets exactly one `skip (n)` call and
no `read`; a source that does not respond to `skip` but responds to `read` gets exactly one
`read (n)` call whose value is discarded (only an exception of it propagates); a source that
responds to neither gets no call at all and a warning is printed; in every case at most one
method invocation is made for one skip request. -/
theorem skip_callback_calls {σ : Type} (user : Source σ) (n : Nat) (w : World σ) :
    (user.responds .skip = true →
      (sr_skip_callback user n w).2.calls = w.calls ++ [(.skip, [.fixnum (n : Int)])]) ∧
    (user.responds .skip = false → user.responds .read = true →
      (sr_skip_callback user n w).2.calls = w.calls ++ [(.read, [.fixnum (n : Int)])] ∧
      (sr_skip_callback user n w).1 =
        (user.invoke .read [.fixnum (n : Int)] w.src).1.map (fun _ => ())) ∧
    (user.responds .skip = false → user.responds .read = false →
      sr_skip_callback user n w = (.ok (), rb_warn .no_skip_or_read w)) ∧
    (∃ made, (sr_skip_callback user n w).2.calls = w.calls ++ made ∧ made.length ≤ 1) := by
  have key1 : user.responds .skip = true →
      (sr_skip_callback user n w).2.calls = w.calls ++ [(.skip, [.fixnum (n : Int)])] := by
    intro hs
    unfold sr_skip_callback
    dsimp only
    rw [rb_check_funcall_responds user .skip _ w hs]
    cases (user.invoke .skip [.fixnum (n : Int)] w.src).1 <;> rfl
  have key2 : user.responds .skip = false → user.responds .read = true →
      (sr_skip_callback user n w).2.calls = w.calls ++ [(.read, [.fixnum (n : Int)])] ∧
      (sr_skip_callback user n w).1 =
        (user.invoke .read [.fixnum (n : Int)] w.src).1.map (fun _ => ()) := by
    intro hs hr
    unfold sr_skip_callback
    dsimp only
    rw [rb_check_funcall_undef user .skip _ w hs]
    dsimp only [Qundef]
    rw [rb_check_funcall_responds user .read _ w hr]
    cases (user.invoke .read [.fixnum (n : Int)] w.src).1 <;> exact ⟨rfl, rfl⟩
  have key3 : user.responds .skip = false → user.responds .read = false →
      sr_skip_callback user n w = (.ok (), rb_warn .no_skip_or_read w) := by
    intro hs hr
    unfold sr_skip_callback
    dsimp only
    rw [rb_check_funcall_undef user .skip _ w hs]
    dsimp only [Qundef]
    rw [rb_check_funcall_undef user .read _ w hr]
    rfl
  refine ⟨key1, key2, key3, ?_⟩
  cases hs : user.responds .skip
  · cases hr : user.responds .read
    · exact ⟨[], by rw [key3 hs hr]; simp [rb_warn], by simp⟩
    · exact ⟨_, (key2 hs hr).1, by simp⟩
  · exact ⟨_, key1 hs, by simp⟩

/-- Claim C6, amended, at concrete inputs: one source for each of the three cases. -/
theorem skip_callback_calls_witness :
    (sr_skip_callback skipper 4 w0).2.calls = w0.calls ++ [(.skip, [.fixnum ((4 : Nat) : Int)])] ∧
    (sr_skip_callback read_only 4 w0).2.calls =
      w0.calls ++ [(.read, [.fixnum ((4 : Nat) : Int)])] ∧
    sr_skip_callback bare_object 4 w0 = (.ok (), rb_warn .no_skip_or_read w0) :=
  ⟨(skip_callback_calls skipper 4 w0).1 rfl,
    ((skip_callback_calls read_only 4 w0).2.1 rfl rfl).1,
    (skip_callback_calls bare_object 4 w0).2.2.1 rfl rfl⟩

/-- Claim C7, evaluated where it fails: the decoder succeeds with a 46341 x 46341 image of one
component. The int product wraps to a negative length, `rb_external_str_new` raises
`ArgumentError`, and neither loader returns the four-element array. -/
theorem load_large_image_raises :
    sr_load_image large_decoder (some file_at_end) none none w0 =
      (.error .ArgumentError, enter_decoder w0) ∧
    sr_load_float_image large_decoder (some file_at_end) none none w0 =
      (.error .ArgumentError, enter_decoder w0) :=
  ⟨rfl, rfl⟩

/-- Claim C8: for every numeric value, each of the four setters returns the value it was
given, makes exactly one call into the decoder library, namely to the setter of its own
name with the value converted by `NUM2DBL` and the cast to `float`, and thereby changes its
own conversion parameter only. There is no range test: the statement holds for all
values. -/
theorem setters_forward_own_parameter {D F : Type} (ofInt : Int → D) (toFloat : D → F)
    (value : Numeric D) (cfg : GlobalConversionConfig F) :
    ((sr_set_hdr_to_ldr_gamma ofInt toFloat value).1 = value ∧
      (sr_set_hdr_to_ldr_gamma ofInt toFloat value).2 =
        [.stbi_hdr_to_ldr_gamma (toFloat (NUM2DBL ofInt value))] ∧
      apply_calls (sr_set_hdr_to_ldr_gamma ofInt toFloat value).2 cfg =
        { cfg with hdr_to_ldr_gamma := toFloat (NUM2DBL ofInt value) }) ∧
    ((sr_set_hdr_to_ldr_scale ofInt toFloat value).1 = value ∧
      (sr_set_hdr_to_ldr_scale ofInt toFloat value).2 =
        [.stbi_hdr_to_ldr_scale (toFloat (NUM2DBL ofInt value))] ∧
      apply_calls (sr_set_hdr_to_ldr_scale ofInt toFloat value).2 cfg =
        { cfg with hdr_to_ldr_scale := toFloat (NUM2DBL ofInt value) }) ∧
    ((sr_set_ldr_to_hdr_gamma ofInt toFloat value).1 = value ∧
      (sr_set_ldr_to_hdr_gamma ofInt toFloat value).2 =
        [.stbi_ldr_to_hdr_gamma (toFloat (NUM2DBL ofInt value))] ∧
      apply_calls (sr_set_ldr_to_hdr_gamma ofInt toFloat value).2 cfg =
        { cfg with ldr_to_hdr_gamma := toFloat (NUM2DBL ofInt value) }) ∧
    ((sr_set_ldr_to_hdr_scale ofInt toFloat value).1 = value ∧
      (sr_set_ldr_to_hdr_scale ofInt toFloat value).2 =
        [.stbi_ldr_to_hdr_scale (toFloat (NUM2DBL ofInt value))] ∧
      apply_calls (sr_set_ldr_to_hdr_scale ofInt toFloat value).2 cfg =
        { cfg with ldr_to_hdr_scale := toFloat (NUM2DBL ofInt value) }) :=
  ⟨⟨rfl, rfl, rfl⟩, ⟨rfl, rfl, rfl⟩, ⟨rfl, rfl, rfl⟩, ⟨rfl, rfl, rfl⟩⟩

/-- Claim C9, evaluated where it fails: the decoder asks for 4 bytes, the source returns a
String of 8 bytes; the callback copies all 8 bytes into the buffer and returns 8. -/
theorem read_callback_overruns_buffer :
    (sr_read_callback long_reader 4 w0).2.calls = [(.read, [.fixnum 4])] ∧
    ∃ r : ReadResult, (sr_read_callback long_reader 4 w0).1 = .ok r ∧
      4 < r.ret ∧ 4 < r.copied.length :=
  ⟨rfl, { copied := [65, 66, 67, 68, 69, 70, 71, 72], ret := 8 }, rfl, by decide, by decide⟩

end StbImage
